import Mathlib

/-!
# Verification of the `extractZip` archive-extraction engine (src/util.js)

Shallow embedding of the ZIP-extraction routine of `src/util.js`
(`extractZip` and the helpers it relies on), together with theorems that
settle the spec's claims about it.

Modelling choices:
* JavaScript numbers that the code manipulates are ZIP fields read as
  unsigned integers (`externalFileAttributes` is a uint32, `versionMadeBy`
  a uint16); they are modelled as `Nat`.  The code's `>>>`/`>>` and `&`
  are `Nat.shiftRight` / `Nat.land`, which agree with the JS operators on
  those ranges (after the `& 0xFFFF` mask, `>> 16` and `>>> 16` coincide
  on uint32 inputs).
* The asynchronous, event-driven extraction loop is sequentialised: the
  code only ever requests the next entry (`zipfile.readEntry()`) from the
  completion callback of the previous entry's materialization, so the
  run is a deterministic fold over the entry list.  The run is
  instrumented with an event trace; each event is tagged with the 1-based
  index of the entry being processed (tag `0` for archive-level events).
* Fallible external operations (opening a decompression stream, the
  stream erroring mid-transfer, the destination write stream erroring)
  are modelled by per-entry oracle fields on `ZipEntry`; `fs.mkdirp`'s
  possible failure is the `mkdirpErr` field.  The code passes `mkdirp` a
  callback that ignores the error argument, so the model never reads
  `mkdirpErr`.  A stream `error` with a listener attached aborts
  (close + reject); the regular-file branch attaches no listener to its
  read stream, so that error is an unhandled event, modelled as the
  distinct outcome `RunStop.uncaught` (no close, promise never settles).
* `path.join` / `path.dirname` are Node's documented posix semantics
  (segment normalization resolving `.` and `..`), modelled on character
  lists; both arguments of `join` are non-empty in every reachable call
  (guaranteed by the precondition checks).
-/

/-! ## Node posix path model -/

/-- Split a character list on `/` separators (the raw segments, empties
included, as `path.normalize` sees them). -/
def splitSegs : List Char → List (List Char)
  | [] => [[]]
  | c :: rest =>
    let r := splitSegs rest
    if c = '/' then [] :: r
    else
      match r with
      | [] => [[c]]
      | seg :: segs => (c :: seg) :: segs

/-- Re-join segments with `/` separators. -/
def joinSegs : List (List Char) → List Char
  | [] => []
  | [s] => s
  | s :: rest => s ++ '/' :: joinSegs rest

/-- One step of Node's `normalizeString` stack algorithm: push a segment,
resolving `..` against the stack (a leading `..` is kept for relative
paths and dropped at the root of absolute paths). -/
def pushSeg (isAbs : Bool) (stack : List (List Char)) (seg : List Char) : List (List Char) :=
  if seg = ['.', '.'] then
    match stack with
    | [] => if isAbs then [] else [seg]
    | top :: rest => if top = ['.', '.'] then seg :: stack else rest
  else
    seg :: stack

/-- Node's posix `path.normalize`: drop empty and `.` segments, resolve
`..` segments, keep absoluteness; the empty relative result is `.`. -/
def normalizePath (p : String) : String :=
  let cs := p.data
  let isAbs := cs.head? = some '/'
  let segs := (splitSegs cs).filter (fun s => !s.isEmpty && s ≠ ['.'])
  let out := (segs.foldl (pushSeg isAbs) []).reverse
  if isAbs then String.mk ('/' :: joinSegs out)
  else if out.isEmpty then "."
  else String.mk (joinSegs out)

/-- Node's posix `path.join(a, b)` for non-empty `a` and `b`: concatenate
with a `/` and normalize.  (Both call sites in `extractZip` have non-empty
arguments: `dest` is checked non-empty and ZIP entry names are non-empty.) -/
def pathJoin (a b : String) : String :=
  normalizePath (String.mk (a.data ++ '/' :: b.data))

/-- Node's posix `path.dirname`: strip trailing slashes, drop the last
component and its separator run; empty result is `.` (or `/` when the
input was absolute). -/
def pathDirname (p : String) : String :=
  let cs := p.data
  let isAbs := cs.head? = some '/'
  let r := (cs.reverse.dropWhile (fun c => c = '/')).dropWhile (fun c => c ≠ '/')
  let r2 := r.dropWhile (fun c => c = '/')
  if r2.isEmpty then (if isAbs then "/" else ".")
  else String.mk r2.reverse

/-- Predicate: `p` stays inside the directory `dest` (after normalization `p` is
`dest` itself or a strict descendant).  This is the hardening predicate
the spec requires of `join(destination, entry.name)`. -/
def isInside (dest p : String) : Bool :=
  let d := normalizePath dest
  let q := normalizePath p
  q == d || (d ++ "/").data.isPrefixOf q.data

/-! ## UTF-8 decoding (`Buffer.toString('utf8')`) -/

/-- A scalar value as a `Char`, or U+FFFD when it is not a valid Unicode
scalar (surrogates, values above 0x10FFFF), matching Node's replacement
behaviour. -/
def mkChar (n : Nat) : Char :=
  if n.isValidChar then Char.ofNat n else Char.ofNat 0xFFFD

/-- Fuelled UTF-8 decoder over a byte list: standard 1–4 byte sequences;
an invalid lead or missing continuation byte produces U+FFFD and skips one
byte.  The fuel is the list length (at least one byte is consumed per
step). -/
def utf8DecodeAux : Nat → List Nat → List Char
  | 0, _ => []
  | _, [] => []
  | fuel + 1, b :: rest =>
    if b < 0x80 then
      mkChar b :: utf8DecodeAux fuel rest
    else if 0xC0 ≤ b ∧ b ≤ 0xDF then
      match rest with
      | c1 :: rest1 =>
        if 0x80 ≤ c1 ∧ c1 ≤ 0xBF then
          mkChar ((b - 0xC0) * 0x40 + (c1 - 0x80)) :: utf8DecodeAux fuel rest1
        else
          mkChar 0xFFFD :: utf8DecodeAux fuel rest
      | [] => [mkChar 0xFFFD]
    else if 0xE0 ≤ b ∧ b ≤ 0xEF then
      match rest with
      | c1 :: c2 :: rest2 =>
        if (0x80 ≤ c1 ∧ c1 ≤ 0xBF) ∧ (0x80 ≤ c2 ∧ c2 ≤ 0xBF) then
          mkChar ((b - 0xE0) * 0x1000 + (c1 - 0x80) * 0x40 + (c2 - 0x80)) ::
            utf8DecodeAux fuel rest2
        else
          mkChar 0xFFFD :: utf8DecodeAux fuel rest
      | _ => [mkChar 0xFFFD]
    else if 0xF0 ≤ b ∧ b ≤ 0xF7 then
      match rest with
      | c1 :: c2 :: c3 :: rest3 =>
        if (0x80 ≤ c1 ∧ c1 ≤ 0xBF) ∧ (0x80 ≤ c2 ∧ c2 ≤ 0xBF) ∧ (0x80 ≤ c3 ∧ c3 ≤ 0xBF) then
          mkChar ((b - 0xF0) * 0x40000 + (c1 - 0x80) * 0x1000 +
              (c2 - 0x80) * 0x40 + (c3 - 0x80)) :: utf8DecodeAux fuel rest3
        else
          mkChar 0xFFFD :: utf8DecodeAux fuel rest
      | _ => [mkChar 0xFFFD]
    else
      mkChar 0xFFFD :: utf8DecodeAux fuel rest

/-- Model of `Buffer.concat(chunks).toString('utf8')`: decode a byte list as UTF-8
text. -/
def utf8Decode (bs : List Nat) : String :=
  String.mk (utf8DecodeAux bs.length bs)

/-! ## JavaScript value model (for the argument-shape checks) -/

/-- Thrown JavaScript values, as `extractZip` produces or propagates them:
`TypeError`s and `Error`s from the precondition checks and abort paths,
and arbitrary values thrown by the caller's progress callback. -/
inductive JsError where
  | typeError (msg : String)
  | error (msg : String)
  | thrown (msg : String)
deriving DecidableEq

/-- How a run can stop short of resolving: a promise rejection (a thrown
precondition error, a `reject(...)` call, or `abort`), or an *unhandled*
`error` event — an event emitted on a stream with no `error` listener
attached, which crashes the process without ever settling the promise. -/
inductive RunStop where
  | rejected (e : JsError)
  | uncaught (m : String)
deriving DecidableEq

/-- A JavaScript value in a parameter position (`params.dest`,
`params.file`).  `objV` stands for any non-null object. -/
inductive JsVal where
  | undef
  | null
  | boolV (b : Bool)
  | numV (n : Int)
  | strV (s : String)
  | objV
deriving DecidableEq

/-- JS falsiness (`!v`). -/
def jsFalsyV : JsVal → Bool
  | JsVal.undef => true
  | JsVal.null => true
  | JsVal.boolV b => !b
  | JsVal.numV n => n == 0
  | JsVal.strV s => s == ""
  | JsVal.objV => false

/-- JS `typeof v`. -/
def jsTypeofV : JsVal → String
  | JsVal.undef => "undefined"
  | JsVal.null => "object"
  | JsVal.boolV _ => "boolean"
  | JsVal.numV _ => "number"
  | JsVal.strV _ => "string"
  | JsVal.objV => "object"

/-- The underlying string of a string value (only read after the
`typeof v === 'string'` check has passed). -/
def jsAsStr : JsVal → String
  | JsVal.strV s => s
  | _ => ""

/-! ## ZIP entries and the classifier (lines 131–146) -/

/-- One central-directory record, as yauzl hands it to the `entry`
handler, together with the environment oracle for the fallible external
operations performed while materializing it:
* `mkdirpErr`: `fs.mkdirp` would fail with this error (the code's
  callbacks ignore the error argument, so this field is never read);
* `openStreamErr`: `zipfile.openReadStream` yields this error;
* `streamErr`: the decompression stream emits `error` while draining;
* `writeErr`: the destination write stream emits `error`.
`content` is the entry's decompressed byte sequence. -/
structure ZipEntry where
  fileName : String
  externalFileAttributes : Nat
  versionMadeBy : Nat
  content : List Nat
  mkdirpErr : Option String
  openStreamErr : Option String
  streamErr : Option String
  writeErr : Option String
deriving DecidableEq

/-- An entry with no environment failures. -/
def mkEntry (name : String) (attrs vmb : Nat) (content : List Nat) : ZipEntry :=
  ⟨name, attrs, vmb, content, none, none, none, none⟩

def S_IFMT : Nat := 0xF000
def S_IFLNK : Nat := 0xA000
def S_IFDIR : Nat := 0x4000

/-- Line 132: `let mode = (entry.externalFileAttributes >>> 16) & 0xFFFF`. -/
def entryMode (e : ZipEntry) : Nat :=
  (e.externalFileAttributes >>> 16) &&& 0xFFFF

/-- Line 134: `(mode & fs.constants.S_IFMT) === fs.constants.S_IFLNK`. -/
def isSymlink (e : ZipEntry) : Bool :=
  (entryMode e &&& S_IFMT) == S_IFLNK

/-- Lines 135–142: Unix `S_IFDIR` bits, or the Windows fallback
(`versionMadeBy >> 8 === 0 && externalFileAttributes === 16`). -/
def isDirEntry (e : ZipEntry) : Bool :=
  ((entryMode e &&& S_IFMT) == S_IFDIR) ||
    (((e.versionMadeBy >>> 8) == 0) && (e.externalFileAttributes == 16))

/-- Lines 144-146: when `mode` is 0 it is replaced by `0o644`; this is the permission
mode actually passed to `createWriteStream`. -/
def effMode (e : ZipEntry) : Nat :=
  if entryMode e == 0 then 0o644 else entryMode e

/-- Derived classification, mirroring the branch order of lines 148–182:
`if (symlink) … else if (isDir) … else …`. -/
inductive EntryKind where
  | symlink
  | directory
  | regularFile
deriving DecidableEq

def classify (e : ZipEntry) : EntryKind :=
  if isSymlink e then EntryKind.symlink
  else if isDirEntry e then EntryKind.directory
  else EntryKind.regularFile

example : classify (mkEntry "a.txt" (0x81A4 * 0x10000) 0x0314 []) = EntryKind.regularFile := by
  decide

example : classify (mkEntry "dir/" (0x41ED * 0x10000) 0x0314 []) = EntryKind.directory := by
  decide

example : classify (mkEntry "dir/" 16 0x0014 []) = EntryKind.directory := by decide

example : classify (mkEntry "l" (0xA1FF * 0x10000) 0x0314 []) = EntryKind.symlink := by decide

/-! ## The instrumented extraction run (lines 106–187) -/

/-- Observable actions of one extraction run.  `mkdirp`, `symlinkCreate`
and `writeFile` are the filesystem mutations; `advance` is the
`zipfile.readEntry()` request that lets the reader move to the next
entry; `openArchive`/`closeArchive` are the archive-handle lifecycle. -/
inductive FsEvent where
  | openArchive
  | callOnEntry (name : String) (idx total : Nat)
  | mkdirp (path : String)
  | symlinkCreate (target path : String)
  | writeFile (path : String) (mode : Nat) (content : List Nat)
  | advance
  | closeArchive
deriving DecidableEq

/-- Classification and materialization of one entry (lines 131–182),
after the `onEntry` callback has returned normally.  Returns the emitted
events and how the run stops, if it does.  Faithful points:
* `fs.mkdirp(..., () => …)` — the error argument is ignored, so the
  `mkdirpErr` oracle field is never consulted and the branch continues
  unconditionally after the `mkdirp` event;
* an `openReadStream` error (both branches), a read-stream `error` in
  the symlink branch (`readStream.on('error', abort)`, line 157), and a
  write-stream `error` (line 178) all go through `abort`, which closes
  the archive (`closeArchive` event) and rejects;
* in the regular-file branch (lines 168–181) **no** `error` listener is
  attached to the read stream — `pipe` does not forward errors — so a
  decompression error there is an unhandled `error` event: no `abort`,
  no close, no rejection (`RunStop.uncaught`);
* `zipfile.readEntry()` (`advance`) is issued only from the completion
  callback: after `symlinkSync`, after the directory `mkdirp`, or from
  the write stream's `close` handler. -/
def processEntryEvents (dest : String) (e : ZipEntry) : List FsEvent × Option RunStop :=
  let fullPath := pathJoin dest e.fileName
  if isSymlink e then
    match e.openStreamErr with
    | some m => ([FsEvent.mkdirp (pathDirname fullPath), FsEvent.closeArchive],
                 some (RunStop.rejected (JsError.error m)))
    | none =>
      match e.streamErr with
      | some m => ([FsEvent.mkdirp (pathDirname fullPath), FsEvent.closeArchive],
                   some (RunStop.rejected (JsError.error m)))
      | none =>
        ([FsEvent.mkdirp (pathDirname fullPath),
          FsEvent.symlinkCreate (utf8Decode e.content) fullPath,
          FsEvent.advance], none)
  else if isDirEntry e then
    ([FsEvent.mkdirp fullPath, FsEvent.advance], none)
  else
    match e.openStreamErr with
    | some m => ([FsEvent.mkdirp (pathDirname fullPath), FsEvent.closeArchive],
                 some (RunStop.rejected (JsError.error m)))
    | none =>
      match e.streamErr with
      | some m => ([FsEvent.mkdirp (pathDirname fullPath)], some (RunStop.uncaught m))
      | none =>
        match e.writeErr with
        | some m => ([FsEvent.mkdirp (pathDirname fullPath), FsEvent.closeArchive],
                     some (RunStop.rejected (JsError.error m)))
        | none =>
          ([FsEvent.mkdirp (pathDirname fullPath),
            FsEvent.writeFile fullPath (effMode e) e.content,
            FsEvent.advance], none)

/-- Tagged variant: `processEntryEvents` with every event tagged by the entry's 1-based
index. -/
def processEntry (dest : String) (i : Nat) (e : ZipEntry) :
    List (Nat × FsEvent) × Option RunStop :=
  let r := processEntryEvents dest e
  (r.1.map (fun ev => (i, ev)), r.2)

/-- The `entry`/`end` event loop of lines 112–185, sequentialised.
`idx` is the running counter (`idx++` happens at handler entry, so the
current entry is numbered `idx + 1`); `total` is `zipfile.entryCount`.
Faithful points:
* when the progress callback throws, the code does `reject(e)` directly
  (line 127) — not `abort(e)` — so no `closeArchive` event is emitted and
  iteration stops;
* on exhaustion the `end` listener resolves and yauzl's default
  `autoClose` closes the archive (the final archive-level `closeArchive`
  event, tag 0);
* a materialization failure that went through `abort` already emitted
  its `closeArchive` inside `processEntry`; an unhandled stream `error`
  emitted none. -/
def runEntries (dest : String) (cb : Option (String → Nat → Nat → Except JsError Unit))
    (total : Nat) : Nat → List ZipEntry → List (Nat × FsEvent) × Option RunStop
  | _, [] => ([(0, FsEvent.closeArchive)], none)
  | idx, e :: rest =>
    match cb with
    | none =>
      match processEntry dest (idx + 1) e with
      | (evs, some err) => (evs, some err)
      | (evs, none) =>
        let r := runEntries dest none total (idx + 1) rest
        (evs ++ r.1, r.2)
    | some f =>
      match f e.fileName (idx + 1) total with
      | Except.error err =>
        ([(idx + 1, FsEvent.callOnEntry e.fileName (idx + 1) total)],
         some (RunStop.rejected err))
      | Except.ok _ =>
        match processEntry dest (idx + 1) e with
        | (evs, some err) =>
          ((idx + 1, FsEvent.callOnEntry e.fileName (idx + 1) total) :: evs, some err)
        | (evs, none) =>
          let r := runEntries dest (some f) total (idx + 1) rest
          ((idx + 1, FsEvent.callOnEntry e.fileName (idx + 1) total) :: (evs ++ r.1), r.2)

/-- The filesystem queries the precondition checks perform
(`fs.existsSync`, `isFile` from appcd-fs). -/
structure FsOracle where
  existsSync : String → Bool
  isFile : String → Bool

/-- The fields `extractZip` reads off a params object: `dest`, `file`
(arbitrary JS values until validated) and the optional `onEntry`
callback, modelled as a function that either returns or throws. -/
structure ExtractParams where
  dest : JsVal
  file : JsVal
  onEntry : Option (String → Nat → Nat → Except JsError Unit)

/-- The single argument of `extractZip`: either some non-object JS value
or a params object. -/
inductive ParamsArg where
  | undefArg
  | nullArg
  | boolArg (b : Bool)
  | numArg (n : Int)
  | strArg (s : String)
  | objArg (p : ExtractParams)

/-- Line 82: `!params || typeof params !== 'object'`. -/
def jsFalsyArg : ParamsArg → Bool
  | ParamsArg.undefArg => true
  | ParamsArg.nullArg => true
  | ParamsArg.boolArg b => !b
  | ParamsArg.numArg n => n == 0
  | ParamsArg.strArg s => s == ""
  | ParamsArg.objArg _ => false

def jsTypeofArg : ParamsArg → String
  | ParamsArg.undefArg => "undefined"
  | ParamsArg.nullArg => "object"
  | ParamsArg.boolArg _ => "boolean"
  | ParamsArg.numArg _ => "number"
  | ParamsArg.strArg _ => "string"
  | ParamsArg.objArg _ => "object"

/-- Lines 88–110: the `dest`/`file` shape checks, the `existsSync` and
`isFile` checks, then `yauzl.open`.  `zip` is the outcome of parsing the
archive's central directory: `Except.error m` when yauzl reports an open
error (no handle produced), `Except.ok entries` otherwise. -/
def extractZipChecked (p : ExtractParams) (fsys : FsOracle)
    (zip : Except String (List ZipEntry)) : List (Nat × FsEvent) × Option RunStop :=
  if jsFalsyV p.dest || (jsTypeofV p.dest != "string") then
    ([], some (RunStop.rejected
      (JsError.typeError "Expected destination directory to be a non-empty string")))
  else if jsFalsyV p.file || (jsTypeofV p.file != "string") then
    ([], some (RunStop.rejected
      (JsError.typeError "Expected zip file to be a non-empty string")))
  else if !(fsys.existsSync (jsAsStr p.file)) then
    ([], some (RunStop.rejected (JsError.error "The specified zip file does not exist")))
  else if !(fsys.isFile (jsAsStr p.file)) then
    ([], some (RunStop.rejected (JsError.error "The specified zip file is not a file")))
  else
    match zip with
    | Except.error m =>
      ([], some (RunStop.rejected (JsError.error ("Invalid zip file: " ++ m))))
    | Except.ok entries =>
      let r := runEntries (jsAsStr p.dest) p.onEntry entries.length 0 entries
      ((0, FsEvent.openArchive) :: r.1, r.2)

/-- Lines 81-188, `extractZip(params)`: the whole routine, from the
params-shape check to the final outcome, as an event trace plus stop
value (`none` = the promise resolved; `RunStop.rejected` = the promise
rejected; `RunStop.uncaught` = an unhandled stream `error` crashed the
run without settling the promise). -/
def extractZip (arg : ParamsArg) (fsys : FsOracle)
    (zip : Except String (List ZipEntry)) : List (Nat × FsEvent) × Option RunStop :=
  if jsFalsyArg arg || (jsTypeofArg arg != "object") then
    ([], some (RunStop.rejected (JsError.typeError "Expected params to be an object")))
  else
    match arg with
    | ParamsArg.objArg p => extractZipChecked p fsys zip
    | _ => ([], some (RunStop.rejected (JsError.typeError "Expected params to be an object")))

/-! ## Concrete fixtures -/

/-- Filesystem on which the source archive exists and is a regular file. -/
def fsysTrue : FsOracle := ⟨fun _ => true, fun _ => true⟩

/-- Regular file `a.txt`, Unix mode `0o100644`, content `"hi"`. -/
def eA : ZipEntry := mkEntry "a.txt" (0x81A4 * 0x10000) 0x0314 [104, 105]

/-- Directory `dir/`, Unix mode `040755`. -/
def eDir : ZipEntry := mkEntry "dir/" (0x41ED * 0x10000) 0x0314 []

/-- Symlink `dir/link` whose content decodes to `../a.txt`. -/
def eLink : ZipEntry :=
  mkEntry "dir/link" (0xA1FF * 0x10000) 0x0314 [46, 46, 47, 97, 46, 116, 120, 116]

/-- A params object with string `dest`/`file` and no callback. -/
def plainParams : ExtractParams := ⟨JsVal.strV "dest", JsVal.strV "src.zip", none⟩

example :
    extractZip (ParamsArg.objArg plainParams) fsysTrue (Except.ok [eA, eDir, eLink]) =
      ([(0, FsEvent.openArchive),
        (1, FsEvent.mkdirp "dest"),
        (1, FsEvent.writeFile "dest/a.txt" 0x81A4 [104, 105]),
        (1, FsEvent.advance),
        (2, FsEvent.mkdirp "dest/dir"),
        (2, FsEvent.advance),
        (3, FsEvent.mkdirp "dest/dir"),
        (3, FsEvent.symlinkCreate "../a.txt" "dest/dir/link"),
        (3, FsEvent.advance),
        (0, FsEvent.closeArchive)], none) := by
  decide

/-- No environment failure hits this entry: its streams open, drain and
flush normally. -/
def cleanEntry (e : ZipEntry) : Bool :=
  e.openStreamErr.isNone && e.streamErr.isNone && e.writeErr.isNone

/-- Progress callback that never throws. -/
def cbOk : String → Nat → Nat → Except JsError Unit := fun _ _ _ => Except.ok ()

/-- Progress callback that throws on the second entry. -/
def cbThrow2 : String → Nat → Nat → Except JsError Unit :=
  fun _ i _ => if i == 2 then Except.error (JsError.thrown "boom") else Except.ok ()

/-- Params object with `cbThrow2` attached. -/
def throwParams : ExtractParams := ⟨JsVal.strV "dest", JsVal.strV "src.zip", some cbThrow2⟩

/-- Params object with the never-throwing callback attached. -/
def okCbParams : ExtractParams := ⟨JsVal.strV "dest", JsVal.strV "src.zip", some cbOk⟩

/-- Regular entry whose decompression stream errors mid-transfer (in the
regular-file branch no `error` listener is attached to the read stream,
so this event is unhandled). -/
def eAReadErr : ZipEntry :=
  ⟨"a.txt", 0x81A4 * 0x10000, 0x0314, [104, 105], none, none, some "EIO", none⟩

/-- Regular entry whose `openReadStream` call yields an error (this one
IS handled: `if (err) return abort(err)`, lines 170-172). -/
def eAOpenErr : ZipEntry :=
  ⟨"a.txt", 0x81A4 * 0x10000, 0x0314, [104, 105], none, some "EACCES", none, none⟩

/-- Directory entry whose recursive creation fails. -/
def eDirFail : ZipEntry := ⟨"dir/", 0x41ED * 0x10000, 0x0314, [], some "EACCES", none, none, none⟩

/-- Regular entry carrying a path-traversal name. -/
def eEscape : ZipEntry := mkEntry "../../escape.txt" 0 0x0014 [120]

/-- Regular entry whose packed Unix mode is 0 (attributes carry no mode
bits at all). -/
def eMode0 : ZipEntry := mkEntry "b.bin" 0 0x0014 [1, 2]

/-- The same entry with a `mkdirp` failure injected. -/
def withMkdirpErr (e : ZipEntry) (m : String) : ZipEntry :=
  ⟨e.fileName, e.externalFileAttributes, e.versionMadeBy, e.content,
    some m, e.openStreamErr, e.streamErr, e.writeErr⟩

/-- Number of `closeArchive` events in a trace. -/
def closeCount (tr : List (Nat × FsEvent)) : Nat :=
  (tr.filter (fun p => p.2 == FsEvent.closeArchive)).length

/-- Claim C1 states: the archive handle is closed exactly once on every
exit path, in particular when the progress callback throws.  The code
violates this on two paths.  Conjuncts 1-2: a clean 3-entry run closes
exactly once (yauzl `autoClose` on `end`), and a run aborted because
`openReadStream` yields an error goes through `abort`, closing exactly
once and rejecting.  Conjuncts 4-7: when the callback throws on entry 2
of 3, the rejection carries the callback's error, entry 1 was fully
materialized, entry 3 is never touched — and the trace contains zero
`closeArchive` events, because line 127 calls `reject(e)` instead of
`abort(e)` and iteration stops before `autoClose` can fire.  Conjuncts
8-9: a regular entry whose decompression stream errors mid-pipe has no
`error` listener (lines 168-181 attach one only to the write stream), so
the event is unhandled: the run crashes without settling the promise and
the handle is again never closed. -/
theorem c1_no_close_when_callback_throws :
    closeCount (extractZip (ParamsArg.objArg plainParams) fsysTrue
        (Except.ok [eA, eDir, eLink])).1 = 1 ∧
    closeCount (extractZip (ParamsArg.objArg plainParams) fsysTrue
        (Except.ok [eAOpenErr, eDir])).1 = 1 ∧
    (extractZip (ParamsArg.objArg plainParams) fsysTrue
        (Except.ok [eAOpenErr, eDir])).2 =
      some (RunStop.rejected (JsError.error "EACCES")) ∧
    (extractZip (ParamsArg.objArg throwParams) fsysTrue
        (Except.ok [eA, eDir, eLink])).2 =
      some (RunStop.rejected (JsError.thrown "boom")) ∧
    (1, FsEvent.writeFile "dest/a.txt" 0x81A4 [104, 105]) ∈
      (extractZip (ParamsArg.objArg throwParams) fsysTrue
        (Except.ok [eA, eDir, eLink])).1 ∧
    (extractZip (ParamsArg.objArg throwParams) fsysTrue
        (Except.ok [eA, eDir, eLink])).1.all (fun x => x.1 != 3) = true ∧
    closeCount (extractZip (ParamsArg.objArg throwParams) fsysTrue
        (Except.ok [eA, eDir, eLink])).1 = 0 ∧
    (extractZip (ParamsArg.objArg plainParams) fsysTrue
        (Except.ok [eAReadErr, eDir])).2 = some (RunStop.uncaught "EIO") ∧
    closeCount (extractZip (ParamsArg.objArg plainParams) fsysTrue
        (Except.ok [eAReadErr, eDir])).1 = 0 := by
  decide

/-- Claim C2 states: `join(destination, entry.name)` always resolves
inside the destination and no filesystem object is created outside it.
The code computes a plain `path.join(dest, entry.fileName)` with no
traversal check, so an entry named `../../escape.txt` extracted to
`dest` is written to `../escape.txt`, outside the destination root (the
classic zip-slip); its parent `mkdirp` also targets `..` outside the
root, and the run still resolves successfully. -/
theorem c2_traversal_entry_escapes_destination :
    pathJoin "dest" "../../escape.txt" = "../escape.txt" ∧
    isInside "dest" (pathJoin "dest" "../../escape.txt") = false ∧
    (1, FsEvent.writeFile "../escape.txt" 0o644 [120]) ∈
      (extractZip (ParamsArg.objArg plainParams) fsysTrue (Except.ok [eEscape])).1 ∧
    (1, FsEvent.mkdirp "..") ∈
      (extractZip (ParamsArg.objArg plainParams) fsysTrue (Except.ok [eEscape])).1 ∧
    (extractZip (ParamsArg.objArg plainParams) fsysTrue (Except.ok [eEscape])).2 = none := by
  decide

/-- Claim C4 states: every error is surfaced, in particular failures of
the recursive directory-creation step.  The code passes `fs.mkdirp`
callbacks that take no error argument (`() => …`, lines 149/166/168), so
a `mkdirp` failure is silently swallowed: the model never reads the
`mkdirpErr` oracle (second conjunct: injecting a `mkdirp` failure leaves
the behaviour bit-for-bit identical), and a 2-entry run whose first,
directory entry fails to `mkdirp` still continues to entry 2 and
resolves successfully (first conjunct). -/
theorem c4_mkdirp_failure_swallowed :
    ((extractZip (ParamsArg.objArg plainParams) fsysTrue (Except.ok [eDirFail, eA])).2 = none ∧
     (1, FsEvent.mkdirp "dest/dir") ∈
       (extractZip (ParamsArg.objArg plainParams) fsysTrue (Except.ok [eDirFail, eA])).1 ∧
     (2, FsEvent.writeFile "dest/a.txt" 0x81A4 [104, 105]) ∈
       (extractZip (ParamsArg.objArg plainParams) fsysTrue (Except.ok [eDirFail, eA])).1) ∧
    (∀ (dest : String) (e : ZipEntry) (m : String),
      processEntryEvents dest (withMkdirpErr e m) = processEntryEvents dest e) := by
  refine ⟨by decide, ?_⟩
  intro dest e m
  cases e
  rfl

/-- Claim C10: for every argument that is absent (`undefined`) or not an
object, `extractZip` rejects with the `TypeError` complaining that
params must be an object; the result is independent of the filesystem
and archive oracles (they are universally quantified), so the check
precedes every filesystem access, every archive open, and the
destination/source precondition checks. -/
theorem c10_params_shape_check (fsys : FsOracle) (zip : Except String (List ZipEntry))
    (arg : ParamsArg) (h : ∀ p, arg ≠ ParamsArg.objArg p) :
    extractZip arg fsys zip =
      ([], some (RunStop.rejected
        (JsError.typeError "Expected params to be an object"))) := by
  cases arg with
  | objArg p => exact absurd rfl (h p)
  | undefArg => rfl
  | nullArg => rfl
  | boolArg b => cases b <;> simp [extractZip, jsFalsyArg, jsTypeofArg]
  | numArg n => simp [extractZip, jsFalsyArg, jsTypeofArg]
  | strArg s => simp [extractZip, jsFalsyArg, jsTypeofArg]

/-- Witness for C10 at the concrete absent argument. -/
theorem c10_params_shape_check_witness :
    extractZip ParamsArg.undefArg fsysTrue (Except.ok [eA]) =
      ([], some (RunStop.rejected
        (JsError.typeError "Expected params to be an object"))) :=
  c10_params_shape_check fsysTrue (Except.ok [eA]) ParamsArg.undefArg
    (fun _ h => ParamsArg.noConfusion h)

/-- Filesystem on which the source path does not exist. -/
def fsysMissing : FsOracle := ⟨fun _ => false, fun _ => false⟩

/-- Filesystem on which the source exists but is not a regular file. -/
def fsysNotFile : FsOracle := ⟨fun _ => true, fun _ => false⟩

/-- Claim C8: `extractZip` fails before any archive I/O with a distinct
failure per violated precondition, checked in this order: destination
missing/not a non-empty string; source missing/not a non-empty string;
source does not exist; source exists but is not a regular file.  Each
conjunct returns an empty trace (so no `openArchive` event ever occurs)
and is independent of the archive oracle `zip` (universally quantified,
so no handle is consulted); the final conjunct shows the four failures
are pairwise distinct values. -/
theorem c8_precondition_checks :
    (∀ (fsys : FsOracle) (zip : Except String (List ZipEntry)) (p : ExtractParams),
      (jsFalsyV p.dest || (jsTypeofV p.dest != "string")) = true →
      extractZip (ParamsArg.objArg p) fsys zip =
        ([], some (RunStop.rejected (JsError.typeError
          "Expected destination directory to be a non-empty string")))) ∧
    (∀ (fsys : FsOracle) (zip : Except String (List ZipEntry)) (p : ExtractParams),
      (jsFalsyV p.dest || (jsTypeofV p.dest != "string")) = false →
      (jsFalsyV p.file || (jsTypeofV p.file != "string")) = true →
      extractZip (ParamsArg.objArg p) fsys zip =
        ([], some (RunStop.rejected (JsError.typeError
          "Expected zip file to be a non-empty string")))) ∧
    (∀ (fsys : FsOracle) (zip : Except String (List ZipEntry)) (p : ExtractParams),
      (jsFalsyV p.dest || (jsTypeofV p.dest != "string")) = false →
      (jsFalsyV p.file || (jsTypeofV p.file != "string")) = false →
      fsys.existsSync (jsAsStr p.file) = false →
      extractZip (ParamsArg.objArg p) fsys zip =
        ([], some (RunStop.rejected (JsError.error
          "The specified zip file does not exist")))) ∧
    (∀ (fsys : FsOracle) (zip : Except String (List ZipEntry)) (p : ExtractParams),
      (jsFalsyV p.dest || (jsTypeofV p.dest != "string")) = false →
      (jsFalsyV p.file || (jsTypeofV p.file != "string")) = false →
      fsys.existsSync (jsAsStr p.file) = true →
      fsys.isFile (jsAsStr p.file) = false →
      extractZip (ParamsArg.objArg p) fsys zip =
        ([], some (RunStop.rejected (JsError.error
          "The specified zip file is not a file")))) ∧
    List.Pairwise (fun a b => a ≠ b)
      [JsError.typeError "Expected destination directory to be a non-empty string",
       JsError.typeError "Expected zip file to be a non-empty string",
       JsError.error "The specified zip file does not exist",
       JsError.error "The specified zip file is not a file"] := by
  refine ⟨?_, ?_, ?_, ?_, by decide⟩
  · intro fsys zip p h1
    simp [extractZip, jsFalsyArg, jsTypeofArg, extractZipChecked, h1]
  · intro fsys zip p h1 h2
    simp [extractZip, jsFalsyArg, jsTypeofArg, extractZipChecked, h1, h2]
  · intro fsys zip p h1 h2 h3
    simp [extractZip, jsFalsyArg, jsTypeofArg, extractZipChecked, h1, h2, h3]
  · intro fsys zip p h1 h2 h3 h4
    simp [extractZip, jsFalsyArg, jsTypeofArg, extractZipChecked, h1, h2, h3, h4]

/-- Witness for C8: all four precondition failures observed on concrete
inputs. -/
theorem c8_precondition_checks_witness :
    extractZip (ParamsArg.objArg ⟨JsVal.undef, JsVal.strV "src.zip", none⟩) fsysTrue
        (Except.ok [eA]) =
      ([], some (RunStop.rejected (JsError.typeError
        "Expected destination directory to be a non-empty string"))) ∧
    extractZip (ParamsArg.objArg ⟨JsVal.strV "dest", JsVal.numV 3, none⟩) fsysTrue
        (Except.ok [eA]) =
      ([], some (RunStop.rejected (JsError.typeError
        "Expected zip file to be a non-empty string"))) ∧
    extractZip (ParamsArg.objArg plainParams) fsysMissing (Except.ok [eA]) =
      ([], some (RunStop.rejected (JsError.error
        "The specified zip file does not exist"))) ∧
    extractZip (ParamsArg.objArg plainParams) fsysNotFile (Except.ok [eA]) =
      ([], some (RunStop.rejected (JsError.error
        "The specified zip file is not a file"))) :=
  ⟨c8_precondition_checks.1 fsysTrue (Except.ok [eA]) ⟨JsVal.undef, JsVal.strV "src.zip", none⟩
      (by decide),
   (c8_precondition_checks.2.1) fsysTrue (Except.ok [eA]) ⟨JsVal.strV "dest", JsVal.numV 3, none⟩
      (by decide) (by decide),
   (c8_precondition_checks.2.2.1) fsysMissing (Except.ok [eA]) plainParams
      (by decide) (by decide) (by decide),
   (c8_precondition_checks.2.2.2.1) fsysNotFile (Except.ok [eA]) plainParams
      (by decide) (by decide) (by decide) (by decide)⟩

/-! ## Classifier and materializer claims -/

/-- Claim C3: classification over `mode = (externalFileAttributes >>> 16)
& 0xFFFF`: `symlink` iff `mode & S_IFMT == S_IFLNK`; otherwise
`directory` iff `mode & S_IFMT == S_IFDIR` or the Windows fallback
(`versionMadeBy >> 8 == 0` and `externalFileAttributes == 16`);
otherwise `regularFile`; and a directory-classified entry is
materialized by creating exactly the directory at the joined path and
requesting the next entry — no file is ever written for it. -/
theorem c3_entry_classification (e : ZipEntry) :
    (classify e = EntryKind.symlink ↔ (entryMode e &&& S_IFMT) = S_IFLNK) ∧
    (classify e = EntryKind.directory ↔
      ((entryMode e &&& S_IFMT) ≠ S_IFLNK ∧
        ((entryMode e &&& S_IFMT) = S_IFDIR ∨
          ((e.versionMadeBy >>> 8) = 0 ∧ e.externalFileAttributes = 16)))) ∧
    (classify e = EntryKind.regularFile ↔
      ((entryMode e &&& S_IFMT) ≠ S_IFLNK ∧ (entryMode e &&& S_IFMT) ≠ S_IFDIR ∧
        ¬((e.versionMadeBy >>> 8) = 0 ∧ e.externalFileAttributes = 16))) ∧
    (∀ (dest : String), classify e = EntryKind.directory →
      processEntryEvents dest e =
        ([FsEvent.mkdirp (pathJoin dest e.fileName), FsEvent.advance], none)) := by
  by_cases h1 : isSymlink e = true
  · have h1p : (entryMode e &&& S_IFMT) = S_IFLNK := by
      simpa [isSymlink] using h1
    refine ⟨by simp [classify, h1, h1p], ?_, ?_, ?_⟩
    · simp [classify, h1, h1p]
    · simp [classify, h1, h1p]
    · intro dest hcd
      simp [classify, h1] at hcd
  · have h1p : (entryMode e &&& S_IFMT) ≠ S_IFLNK := by
      simpa [isSymlink] using h1
    by_cases h2 : isDirEntry e = true
    · have h2p : (entryMode e &&& S_IFMT) = S_IFDIR ∨
          ((e.versionMadeBy >>> 8) = 0 ∧ e.externalFileAttributes = 16) := by
        simpa [isDirEntry] using h2
      refine ⟨by simp [classify, h1, h2, h1p], ?_, ?_, ?_⟩
      · simp [classify, h1, h2, h1p, h2p]
      · simp [classify, h1, h2]
        tauto
      · intro dest _
        simp [processEntryEvents, h1, h2]
    · have h2p : (entryMode e &&& S_IFMT) ≠ S_IFDIR ∧
          ¬((e.versionMadeBy >>> 8) = 0 ∧ e.externalFileAttributes = 16) := by
        have := h2
        simp [isDirEntry] at this
        tauto
      refine ⟨by simp [classify, h1, h2, h1p], ?_, ?_, ?_⟩
      · simp [classify, h1, h2]
        tauto
      · simp [classify, h1, h2]
        tauto
      · intro dest hcd
        simp [classify, h1, h2] at hcd

/-- Witness for C3: the Unix-mode directory entry `dir/` is classified
as a directory and materialized by a single recursive directory
creation followed by the advance request. -/
theorem c3_entry_classification_witness :
    classify eDir = EntryKind.directory ∧
    processEntryEvents "dest" eDir =
      ([FsEvent.mkdirp (pathJoin "dest" eDir.fileName), FsEvent.advance], none) :=
  ⟨by decide, (c3_entry_classification eDir).2.2.2 "dest" (by decide)⟩

/-- Extract the two Boolean classifier facts behind a `regularFile`
classification. -/
theorem classify_regular_elim {e : ZipEntry} (h : classify e = EntryKind.regularFile) :
    isSymlink e = false ∧ isDirEntry e = false := by
  by_cases h1 : isSymlink e = true
  · simp [classify, h1] at h
  · by_cases h2 : isDirEntry e = true
    · simp [classify, h1, h2] at h
    · exact ⟨by simpa using h1, by simpa using h2⟩

/-- Claim C6: for a regular-file entry whose extracted Unix mode is 0 the
destination file is created with permission mode `0o644`; for a non-zero
mode the file is created with exactly that mode (the mode is the third
field of the `writeFile` event, which models `createWriteStream(fullPath,
{ mode })` completing). -/
theorem c6_regular_file_mode (dest : String) (e : ZipEntry)
    (hreg : classify e = EntryKind.regularFile)
    (hclean : cleanEntry e = true) :
    (entryMode e = 0 →
      processEntryEvents dest e =
        ([FsEvent.mkdirp (pathDirname (pathJoin dest e.fileName)),
          FsEvent.writeFile (pathJoin dest e.fileName) 0o644 e.content,
          FsEvent.advance], none)) ∧
    (entryMode e ≠ 0 →
      processEntryEvents dest e =
        ([FsEvent.mkdirp (pathDirname (pathJoin dest e.fileName)),
          FsEvent.writeFile (pathJoin dest e.fileName) (entryMode e) e.content,
          FsEvent.advance], none)) := by
  obtain ⟨h1, h2⟩ := classify_regular_elim hreg
  simp only [cleanEntry, Bool.and_eq_true, Option.isNone_iff_eq_none] at hclean
  obtain ⟨⟨ho, hs⟩, hw⟩ := hclean
  constructor
  · intro hm
    simp [processEntryEvents, h1, h2, ho, hs, hw, effMode, hm]
  · intro hm
    simp [processEntryEvents, h1, h2, ho, hs, hw, effMode, hm]

/-- Witness for C6: the mode-0 entry `b.bin` is materialized with mode
`0o644`, and the mode-`0o100644` entry `a.txt` with exactly its packed
mode. -/
theorem c6_regular_file_mode_witness :
    processEntryEvents "dest" eMode0 =
      ([FsEvent.mkdirp (pathDirname (pathJoin "dest" eMode0.fileName)),
        FsEvent.writeFile (pathJoin "dest" eMode0.fileName) 0o644 eMode0.content,
        FsEvent.advance], none) ∧
    processEntryEvents "dest" eA =
      ([FsEvent.mkdirp (pathDirname (pathJoin "dest" eA.fileName)),
        FsEvent.writeFile (pathJoin "dest" eA.fileName) (entryMode eA) eA.content,
        FsEvent.advance], none) :=
  ⟨(c6_regular_file_mode "dest" eMode0 (by decide) (by decide)).1 (by decide),
   (c6_regular_file_mode "dest" eA (by decide) (by decide)).2 (by decide)⟩

/-- Claim C7: for a symlink-classified entry the materializer first
recursively creates the parent directory, then (the decompression
stream having been fully drained into memory) creates a symbolic link
at the joined path whose target string is the entry's content decoded
as UTF-8, and only then requests the next entry. -/
theorem c7_symlink_materialization (dest : String) (e : ZipEntry)
    (hlnk : classify e = EntryKind.symlink)
    (ho : e.openStreamErr = none) (hs : e.streamErr = none) :
    processEntryEvents dest e =
      ([FsEvent.mkdirp (pathDirname (pathJoin dest e.fileName)),
        FsEvent.symlinkCreate (utf8Decode e.content) (pathJoin dest e.fileName),
        FsEvent.advance], none) := by
  by_cases h1 : isSymlink e = true
  · simp [processEntryEvents, h1, ho, hs]
  · by_cases h2 : isDirEntry e = true
    · simp [classify, h1, h2] at hlnk
    · simp [classify, h1, h2] at hlnk

/-- Witness for C7: the symlink entry `dir/link` is materialized as a
link whose target is its content decoded as UTF-8, namely `../a.txt`. -/
theorem c7_symlink_materialization_witness :
    utf8Decode eLink.content = "../a.txt" ∧
    processEntryEvents "dest" eLink =
      ([FsEvent.mkdirp (pathDirname (pathJoin "dest" eLink.fileName)),
        FsEvent.symlinkCreate (utf8Decode eLink.content) (pathJoin "dest" eLink.fileName),
        FsEvent.advance], none) :=
  ⟨by decide, c7_symlink_materialization "dest" eLink (by decide) (by decide) (by decide)⟩

/-! ## Ordering of the extraction loop (C9 infrastructure) -/

/-- Every event emitted while processing entry `i` carries tag `i`. -/
theorem pe_tag (dest : String) (i : Nat) (e : ZipEntry) :
    ∀ x ∈ (processEntry dest i e).1, (x : Nat × FsEvent).1 = i := by
  intro x hx
  simp only [processEntry, List.mem_map] at hx
  obtain ⟨ev, _, rfl⟩ := hx
  rfl

/-- Raw tag bound for the loop: every trace element is either the final
archive-level close (tag 0) or belongs to an entry numbered above the
running counter. -/
theorem run_tags_raw (dest : String) (cb : Option (String → Nat → Nat → Except JsError Unit))
    (total : Nat) :
    ∀ (entries : List ZipEntry) (idx : Nat) (x : Nat × FsEvent),
      x ∈ (runEntries dest cb total idx entries).1 →
      (x.1 = 0 ∧ x.2 = FsEvent.closeArchive) ∨ idx < x.1 := by
  intro entries
  induction entries with
  | nil =>
    intro idx x hx
    simp only [runEntries, List.mem_singleton] at hx
    subst hx
    exact Or.inl ⟨rfl, rfl⟩
  | cons e rest ih =>
    intro idx x hx
    have htag : ∀ y ∈ (processEntry dest (idx + 1) e).1, (y : Nat × FsEvent).1 = idx + 1 :=
      pe_tag dest (idx + 1) e
    rcases hpe : processEntry dest (idx + 1) e with ⟨evs, r⟩
    rw [hpe] at htag
    cases cb with
    | none =>
      rw [runEntries, hpe] at hx
      cases r with
      | some err =>
        exact Or.inr (htag x hx ▸ Nat.lt_succ_self idx)
      | none =>
        simp only [List.mem_append] at hx
        rcases hx with hx | hx
        · exact Or.inr (htag x hx ▸ Nat.lt_succ_self idx)
        · rcases ih (idx + 1) x hx with h0 | hgt
          · exact Or.inl h0
          · exact Or.inr (Nat.lt_of_succ_lt hgt)
    | some f =>
      rw [runEntries] at hx
      rcases hf : f e.fileName (idx + 1) total with err | u
      · rw [hf] at hx
        simp only [List.mem_singleton] at hx
        subst hx
        exact Or.inr (Nat.lt_succ_self idx)
      · rw [hf, hpe] at hx
        cases r with
        | some err =>
          rcases List.mem_cons.mp hx with rfl | hx
          · exact Or.inr (Nat.lt_succ_self idx)
          · exact Or.inr (htag x hx ▸ Nat.lt_succ_self idx)
        | none =>
          rcases List.mem_cons.mp hx with rfl | hx
          · exact Or.inr (Nat.lt_succ_self idx)
          · rcases List.mem_append.mp hx with hx | hx
            · exact Or.inr (htag x hx ▸ Nat.lt_succ_self idx)
            · rcases ih (idx + 1) x hx with h0 | hgt
              · exact Or.inl h0
              · exact Or.inr (Nat.lt_of_succ_lt hgt)

/-- Filesystem mutations together with the reader-advance request. -/
def isMutOrAdv : FsEvent → Bool
  | FsEvent.mkdirp _ => true
  | FsEvent.symlinkCreate _ _ => true
  | FsEvent.writeFile _ _ _ => true
  | FsEvent.advance => true
  | _ => false

/-- Predicate: `advance` occurs at most once in a list of events, and only in final
position. -/
def advanceOnlyLast : List FsEvent → Bool
  | [] => true
  | [_] => true
  | ev :: rest => (ev != FsEvent.advance) && advanceOnlyLast rest

/-- A list whose elements all carry one tag is trivially tag-monotone. -/
theorem pairwise_tag_const {l : List (Nat × FsEvent)} {i : Nat}
    (h : ∀ x ∈ l, (x : Nat × FsEvent).1 = i) :
    List.Pairwise (fun a b => (a : Nat × FsEvent).1 ≤ (b : Nat × FsEvent).1) l := by
  induction l with
  | nil => exact List.Pairwise.nil
  | cons a t ih =>
    refine List.Pairwise.cons ?_ (ih fun x hx => h x (List.mem_cons_of_mem _ hx))
    intro b hb
    rw [h a (List.mem_cons_self a t), h b (List.mem_cons_of_mem _ hb)]

/-- Mutation/advance events of the loop are tag-monotone: an event of a
later entry never precedes an event of an earlier one. -/
theorem run_tags_mono (dest : String) (cb : Option (String → Nat → Nat → Except JsError Unit))
    (total : Nat) :
    ∀ (entries : List ZipEntry) (idx : Nat),
      List.Pairwise (fun a b => (a : Nat × FsEvent).1 ≤ (b : Nat × FsEvent).1)
        ((runEntries dest cb total idx entries).1.filter (fun p => isMutOrAdv p.2)) := by
  intro entries
  induction entries with
  | nil =>
    intro idx
    simp [runEntries, isMutOrAdv]
  | cons e rest ih =>
    intro idx
    have htag : ∀ y ∈ (processEntry dest (idx + 1) e).1, (y : Nat × FsEvent).1 = idx + 1 :=
      pe_tag dest (idx + 1) e
    have hblock : ∀ (evs : List (Nat × FsEvent)),
        (∀ y ∈ evs, (y : Nat × FsEvent).1 = idx + 1) →
        List.Pairwise (fun a b => (a : Nat × FsEvent).1 ≤ (b : Nat × FsEvent).1)
          (evs.filter (fun p => isMutOrAdv p.2)) := by
      intro evs he
      exact pairwise_tag_const (fun x hx => he x (List.mem_of_mem_filter hx))
    have hcross : ∀ (evs : List (Nat × FsEvent)),
        (∀ y ∈ evs, (y : Nat × FsEvent).1 = idx + 1) →
        ∀ a ∈ evs.filter (fun p => isMutOrAdv p.2),
        ∀ b ∈ (runEntries dest cb total (idx + 1) rest).1.filter (fun p => isMutOrAdv p.2),
          (a : Nat × FsEvent).1 ≤ (b : Nat × FsEvent).1 := by
      intro evs he a ha b hb
      have ha1 : (a : Nat × FsEvent).1 = idx + 1 := he a (List.mem_of_mem_filter ha)
      have hb1 := run_tags_raw dest cb total rest (idx + 1) b (List.mem_of_mem_filter hb)
      rcases hb1 with ⟨_, hbc⟩ | hbgt
      · have := List.of_mem_filter hb
        rw [hbc] at this
        simp [isMutOrAdv] at this
      · omega
    rcases hpe : processEntry dest (idx + 1) e with ⟨evs, r⟩
    rw [hpe] at htag
    cases cb with
    | none =>
      rw [runEntries, hpe]
      cases r with
      | some err => exact hblock evs htag
      | none =>
        simp only [List.filter_append]
        exact (List.pairwise_append).mpr ⟨hblock evs htag, ih (idx + 1), hcross evs htag⟩
    | some f =>
      rw [runEntries]
      rcases hf : f e.fileName (idx + 1) total with err | u
      · simp [isMutOrAdv]
      · rw [hpe]
        cases r with
        | some err =>
          simp only [List.filter_cons, isMutOrAdv, Bool.false_eq_true, if_false,
            decide_False, cond_false]
          exact hblock evs htag
        | none =>
          simp only [List.filter_cons, isMutOrAdv, Bool.false_eq_true, if_false,
            decide_False, cond_false, List.filter_append]
          exact (List.pairwise_append).mpr ⟨hblock evs htag, ih (idx + 1), hcross evs htag⟩

/-- Claim C9: sequential materialization.  (1) In every run, the
filesystem mutations and advance requests are tag-monotone: no mutation
belonging to entry N+1 appears in the trace before any mutation, or the
advance request, of entry N — entry N's materialization (including its
write-stream close, which is what emits its `advance`) fully precedes
entry N+1's first mutation.  (2) Within one entry the advance request
is only ever the final event.  (3) The reader is asked to advance
exactly when the entry's materialization completed (directory created,
symlink created, or write stream closed); aborted entries never request
advancement. -/
theorem c9_sequential_ordering :
    (∀ (arg : ParamsArg) (fsys : FsOracle) (zip : Except String (List ZipEntry)),
      List.Pairwise (fun a b => (a : Nat × FsEvent).1 ≤ (b : Nat × FsEvent).1)
        ((extractZip arg fsys zip).1.filter (fun p => isMutOrAdv p.2))) ∧
    (∀ (dest : String) (e : ZipEntry),
      advanceOnlyLast (processEntryEvents dest e).1 = true) ∧
    (∀ (dest : String) (e : ZipEntry),
      (FsEvent.advance ∈ (processEntryEvents dest e).1 ↔
        (processEntryEvents dest e).2 = none)) := by
  refine ⟨?_, ?_, ?_⟩
  · intro arg fsys zip
    by_cases hc : (jsFalsyArg arg || (jsTypeofArg arg != "object")) = true
    · simp [extractZip, hc]
    · simp only [extractZip, if_neg hc]
      cases arg with
      | undefArg => simp
      | nullArg => simp
      | boolArg b => simp
      | numArg n => simp
      | strArg s => simp
      | objArg p =>
        simp only [extractZipChecked]
        split_ifs with h1 h2 h3 h4
        · simp
        · simp
        · simp
        · simp
        · cases zip with
          | error m => simp
          | ok entries =>
            simp only [List.filter_cons, isMutOrAdv]
            exact run_tags_mono (jsAsStr p.dest) p.onEntry entries.length entries 0
  · intro dest e
    simp only [processEntryEvents]
    by_cases h1 : isSymlink e = true
    · simp only [h1, if_true]
      cases ho : e.openStreamErr with
      | some m => rfl
      | none =>
        cases hs : e.streamErr with
        | some m => rfl
        | none => rfl
    · simp only [h1, Bool.false_eq_true, if_false]
      by_cases h2 : isDirEntry e = true
      · simp only [h2, if_true]
        rfl
      · simp only [h2, Bool.false_eq_true, if_false]
        cases ho : e.openStreamErr with
        | some m => rfl
        | none =>
          cases hs : e.streamErr with
          | some m => rfl
          | none =>
            cases hw : e.writeErr with
            | some m => rfl
            | none => rfl
  · intro dest e
    simp only [processEntryEvents]
    by_cases h1 : isSymlink e = true
    · simp only [h1, if_true]
      cases ho : e.openStreamErr with
      | some m => simp
      | none =>
        cases hs : e.streamErr with
        | some m => simp
        | none => simp
    · simp only [h1, Bool.false_eq_true, if_false]
      by_cases h2 : isDirEntry e = true
      · simp only [h2, if_true]
        simp
      · simp only [h2, Bool.false_eq_true, if_false]
        cases ho : e.openStreamErr with
        | some m => simp
        | none =>
          cases hs : e.streamErr with
          | some m => simp
          | none =>
            cases hw : e.writeErr with
            | some m => simp
            | none => simp

/-! ## Progress-callback reporting (C5 infrastructure) -/

/-- The progress-callback invocations recorded in a trace, in order, as
`(name, index, total)` triples. -/
def cbCallsOf (tr : List (Nat × FsEvent)) : List (String × Nat × Nat) :=
  tr.filterMap (fun p =>
    match p.2 with
    | FsEvent.callOnEntry n i t => some (n, i, t)
    | _ => none)

/-- A clean entry's materialization completes (no rejection). -/
theorem pe_clean_snd (dest : String) (e : ZipEntry) (h : cleanEntry e = true) :
    (processEntryEvents dest e).2 = none := by
  simp only [cleanEntry, Bool.and_eq_true, Option.isNone_iff_eq_none] at h
  obtain ⟨⟨ho, hs⟩, hw⟩ := h
  simp only [processEntryEvents]
  by_cases h1 : isSymlink e = true
  · simp [h1, ho, hs]
  · by_cases h2 : isDirEntry e = true
    · simp [h1, h2]
    · simp [h1, h2, ho, hs, hw]

/-- Materialization never invokes the progress callback: the tagged
events of one entry contribute nothing to `cbCallsOf`. -/
theorem pe_no_call (dest : String) (i : Nat) (e : ZipEntry) :
    cbCallsOf (processEntry dest i e).1 = [] := by
  simp only [processEntry, processEntryEvents]
  by_cases h1 : isSymlink e = true
  · simp only [h1, if_true]
    cases ho : e.openStreamErr with
    | some m => rfl
    | none =>
      cases hs : e.streamErr with
      | some m => rfl
      | none => rfl
  · simp only [h1, Bool.false_eq_true, if_false]
    by_cases h2 : isDirEntry e = true
    · simp only [h2, if_true]
      rfl
    · simp only [h2, Bool.false_eq_true, if_false]
      cases ho : e.openStreamErr with
      | some m => rfl
      | none =>
        cases hs : e.streamErr with
        | some m => rfl
        | none =>
          cases hw : e.writeErr with
          | some m => rfl
          | none => rfl

/-- On a clean archive with a never-throwing callback, the recorded
callback invocations are exactly one per entry, in order, with indices
counting up from the running counter and the constant total. -/
theorem run_clean_calls (dest : String) (f : String → Nat → Nat → Except JsError Unit)
    (total : Nat) (hf : ∀ n i t, f n i t = Except.ok ()) :
    ∀ (entries : List ZipEntry) (idx : Nat),
      (∀ x ∈ entries, cleanEntry x = true) →
      cbCallsOf (runEntries dest (some f) total idx entries).1 =
        (List.enumFrom (idx + 1) entries).map
          (fun p => ((p : Nat × ZipEntry).2.fileName, p.1, total)) := by
  intro entries
  induction entries with
  | nil =>
    intro idx _
    simp [runEntries, cbCallsOf, List.enumFrom]
  | cons e0 rest ih =>
    intro idx hclean
    have he := hclean e0 (List.mem_cons_self e0 rest)
    have hrest : ∀ x ∈ rest, cleanEntry x = true :=
      fun x hx => hclean x (List.mem_cons_of_mem e0 hx)
    have h2 : (processEntry dest (idx + 1) e0).2 = none := pe_clean_snd dest e0 he
    have hnc := pe_no_call dest (idx + 1) e0
    rcases hpe : processEntry dest (idx + 1) e0 with ⟨evs, r⟩
    rw [hpe] at h2 hnc
    simp only at h2 hnc
    subst h2
    rw [runEntries, hf, hpe]
    simp only [cbCallsOf, List.filterMap_cons, List.filterMap_append]
    rw [List.enumFrom]
    simp only [List.map_cons]
    refine congrArg (List.cons _) ?_
    have := ih (idx + 1) hrest
    simp only [cbCallsOf] at this hnc
    rw [hnc, this]
    simp

/-- On a clean archive with a never-throwing callback, the subtrace of
entry `n+1` (by tag) is exactly its callback invocation followed by its
materialization events: the invocation strictly precedes every
filesystem mutation of that entry. -/
theorem run_clean_filter (dest : String) (f : String → Nat → Nat → Except JsError Unit)
    (total : Nat) (hf : ∀ n i t, f n i t = Except.ok ()) :
    ∀ (entries : List ZipEntry) (idx : Nat) (n : Nat) (e : ZipEntry),
      (∀ x ∈ entries, cleanEntry x = true) →
      entries[n]? = some e →
      (runEntries dest (some f) total idx entries).1.filter
          (fun p => p.1 == idx + n + 1) =
        (idx + n + 1, FsEvent.callOnEntry e.fileName (idx + n + 1) total) ::
          (processEntryEvents dest e).1.map (fun ev => (idx + n + 1, ev)) := by
  intro entries
  induction entries with
  | nil =>
    intro idx n e _ hn
    simp at hn
  | cons e0 rest ih =>
    intro idx n e hclean hn
    have he := hclean e0 (List.mem_cons_self e0 rest)
    have hrest : ∀ x ∈ rest, cleanEntry x = true :=
      fun x hx => hclean x (List.mem_cons_of_mem e0 hx)
    have h2 : (processEntry dest (idx + 1) e0).2 = none := pe_clean_snd dest e0 he
    have htag := pe_tag dest (idx + 1) e0
    have hevs := congrArg Prod.fst (rfl : processEntry dest (idx + 1) e0 =
      processEntry dest (idx + 1) e0)
    rcases hpe : processEntry dest (idx + 1) e0 with ⟨evs, r⟩
    rw [hpe] at h2 htag
    simp only at h2 htag
    subst h2
    have hmap : (processEntryEvents dest e0).1.map (fun ev => (idx + 1, ev)) = evs := by
      have := congrArg Prod.fst hpe
      simpa [processEntry] using this
    rw [runEntries, hf, hpe]
    cases n with
    | zero =>
      simp only [List.getElem?_cons_zero, Option.some.injEq] at hn
      subst hn
      simp only [Nat.add_zero]
      rw [List.filter_cons]
      have hp1 : (((idx + 1 : Nat), FsEvent.callOnEntry e0.fileName (idx + 1) total).1 ==
          idx + 1) = true := by simp
      rw [if_pos hp1]
      rw [List.filter_append]
      have hfevs : evs.filter (fun p => p.1 == idx + 1) = evs :=
        List.filter_eq_self.mpr (fun a ha => by simp [htag a ha])
      have hfrec : (runEntries dest (some f) total (idx + 1) rest).1.filter
          (fun p => p.1 == idx + 1) = [] := by
        refine List.filter_eq_nil_iff.mpr (fun a ha => ?_)
        rcases run_tags_raw dest (some f) total rest (idx + 1) a ha with ⟨h0, _⟩ | hgt
        · simp only [beq_iff_eq]
          omega
        · simp only [beq_iff_eq]
          omega
      rw [hfevs, hfrec, List.append_nil, hmap]
    | succ m =>
      rw [List.getElem?_cons_succ] at hn
      have harith : idx + (m + 1) + 1 = idx + 1 + m + 1 := by omega
      simp only [harith]
      rw [List.filter_cons]
      rw [if_neg (by simp only [Prod.fst, beq_iff_eq]; omega)]
      rw [List.filter_append]
      have hfevs : evs.filter (fun p => p.1 == idx + 1 + m + 1) = [] := by
        refine List.filter_eq_nil_iff.mpr (fun a ha => ?_)
        have := htag a ha
        simp only [beq_iff_eq]
        omega
      rw [hfevs, List.nil_append]
      exact ih (idx + 1) m e hrest hn

/-- Claim C5: on an N-entry archive with a supplied, never-throwing
progress callback and no environment failures, the callback is invoked
exactly once per entry with `(entry name, index, total)`: the recorded
invocation list is exactly one triple per entry in archive order with
index counting 1..N and total constantly N (`zipfile.entryCount`), and
for each entry the subtrace of its events starts with the invocation —
every filesystem mutation of that entry comes strictly after it. -/
theorem c5_progress_reporting (dest src : String) (entries : List ZipEntry)
    (f : String → Nat → Nat → Except JsError Unit)
    (hdest : dest ≠ "") (hsrc : src ≠ "")
    (hf : ∀ n i t, f n i t = Except.ok ())
    (hclean : ∀ x ∈ entries, cleanEntry x = true) :
    cbCallsOf (extractZip (ParamsArg.objArg ⟨JsVal.strV dest, JsVal.strV src, some f⟩)
        fsysTrue (Except.ok entries)).1 =
      (List.enumFrom 1 entries).map
        (fun p => ((p : Nat × ZipEntry).2.fileName, p.1, entries.length)) ∧
    (∀ (n : Nat) (e : ZipEntry), entries[n]? = some e →
      (extractZip (ParamsArg.objArg ⟨JsVal.strV dest, JsVal.strV src, some f⟩)
          fsysTrue (Except.ok entries)).1.filter (fun p => p.1 == n + 1) =
        (n + 1, FsEvent.callOnEntry e.fileName (n + 1) entries.length) ::
          (processEntryEvents dest e).1.map (fun ev => (n + 1, ev))) := by
  have h1 : (dest == "") = false := beq_eq_false_iff_ne.mpr hdest
  have h2 : (src == "") = false := beq_eq_false_iff_ne.mpr hsrc
  have hred : extractZip (ParamsArg.objArg ⟨JsVal.strV dest, JsVal.strV src, some f⟩)
      fsysTrue (Except.ok entries) =
      ((0, FsEvent.openArchive) ::
        (runEntries dest (some f) entries.length 0 entries).1,
       (runEntries dest (some f) entries.length 0 entries).2) := by
    simp [extractZip, jsFalsyArg, jsTypeofArg, extractZipChecked, jsFalsyV, jsTypeofV,
      jsAsStr, fsysTrue, h1, h2]
  rw [hred]
  constructor
  · have := run_clean_calls dest f entries.length hf entries 0 hclean
    simp only [Nat.zero_add] at this
    simp only [cbCallsOf, List.filterMap_cons] at this ⊢
    exact this
  · intro n e hn
    rw [List.filter_cons]
    rw [if_neg (by simp only [Prod.fst, beq_iff_eq]; omega)]
    have := run_clean_filter dest f entries.length hf entries 0 n e hclean hn
    simpa only [Nat.zero_add] using this

/-- Witness for C5 on the spec's 3-entry example archive with a
never-throwing callback. -/
theorem c5_progress_reporting_witness :
    cbCallsOf (extractZip (ParamsArg.objArg okCbParams) fsysTrue
        (Except.ok [eA, eDir, eLink])).1 =
      [("a.txt", 1, 3), ("dir/", 2, 3), ("dir/link", 3, 3)] ∧
    (extractZip (ParamsArg.objArg okCbParams) fsysTrue
        (Except.ok [eA, eDir, eLink])).1.filter (fun p => p.1 == 1) =
      (1, FsEvent.callOnEntry "a.txt" 1 3) ::
        (processEntryEvents "dest" eA).1.map (fun ev => (1, ev)) := by
  have h := c5_progress_reporting "dest" "src.zip" [eA, eDir, eLink] cbOk
    (by decide) (by decide) (fun n i t => rfl) (by decide)
  refine ⟨?_, ?_⟩
  · have := h.1
    simpa [List.enumFrom, eA, eDir, eLink, mkEntry] using this
  · exact h.2 0 eA (by decide)
